import Mathlib

/-!
Verification of the streaming-response coordination engine and session
persistence store of the tomatic chat client.

The Rust source is shallowly embedded:

* `handle_llm_request` (src/chat.rs, src/chat/request.rs) becomes a small-step
  interpreter over the sequence of events resolved by its `select!` loop
  (cancellation signal, stream items, stream errors, stream end).  The reactive
  `set_messages.update` calls are modelled by a state field `obs` that records
  every UI-observable value of the message list, in order.  Wall-clock
  `performance.now()` values are attached to the content events that read them.
  `f64` values (timestamps, costs) are modelled as exact rationals.
* the IndexedDB layer (src/persistence.rs) becomes a pure keyed store: a list
  of `ChatSession` records; `put` replaces by key, the `updated_at_ms`
  secondary index is modelled by sorting on (updated_at_ms, session_id), which
  is IndexedDB's cursor order (index key, then primary key), reversed for
  `CursorDirection::Prev`.
* `debounced_save_session` and the `load_session` action (src/main.rs) become
  pure functions of the store and the app state.
-/

/-- System prompt record (src/chat.rs `SystemPrompt`). -/
structure SystemPrompt where
  name : String
  prompt : String
deriving Repr, DecidableEq

/-- Message cost in USD (src/chat.rs `MessageCost`); `f64` modelled as `ℚ`. -/
structure MessageCost where
  prompt : ℚ
  completion : ℚ
deriving Repr, DecidableEq

/-- One conversation turn (src/chat.rs `Message`). -/
structure Message where
  prompt_name : Option String
  role : String
  content : String
  model_name : Option String
  system_prompt_content : Option String
  cost : Option MessageCost
deriving Repr, DecidableEq

/-- Modelled from the spec: the terminal usage record of a streamed response,
`{prompt_tokens: integer, completion_tokens: integer}`.  The `Usage` struct
itself is not under src/ (only its uses in src/chat.rs are), so its shape is
taken from the spec's Model Backend boundary and matches those uses. -/
structure Usage where
  prompt_tokens : Nat
  completion_tokens : Nat
deriving Repr, DecidableEq

/-- Modelled from the spec: an item of the response stream, either a content
delta or a usage report, as consumed by the match in src/chat.rs. -/
inductive StreamedMessage where
  | content (s : String)
  | usage (u : Usage)
deriving Repr, DecidableEq

/-- Model pricing info (src/llm.rs `DisplayModelInfo`); per-million-token USD
prices, absent when the backend supplies none. -/
structure DisplayModelInfo where
  id : String
  name : String
  prompt_cost_usd_pm : Option ℚ
  completion_cost_usd_pm : Option ℚ
deriving Repr, DecidableEq

/-- One event resolved by the `select!` race in `handle_llm_request`
(src/chat.rs lines 97-179): the cancellation signal, a stream item tagged with
the `performance.now()` value read while handling it, a stream error, or
normal stream end (`stream.next()` returning `None`). -/
inductive LoopEvent where
  | cancel
  | item (now : ℚ) (sm : StreamedMessage)
  | itemErr (msg : String)
  | streamEnd
deriving Repr, DecidableEq

/-- How one `handle_llm_request` run terminated.  `pending` marks a run whose
event list was exhausted while the loop was still waiting. -/
inductive Outcome where
  | completed
  | cancelled
  | errored
  | pending
deriving Repr, DecidableEq

/-- State of one `handle_llm_request` invocation: the message list signal, the
locals `accumulated_content`, `buffer`, `last_update_time` of src/chat.rs, the
error signal, plus two observation logs: `obs` records every value the message
list takes (each `set_messages.update`), `flushes` records the `now` of every
UI update performed by the content-delta branch. -/
structure CoordState where
  msgs : List Message
  accumulated_content : String
  buffer : String
  last_update_time : Option ℚ
  error : Option String
  obs : List (List Message)
  flushes : List ℚ
deriving Repr, DecidableEq

/-- Throttle interval (src/chat.rs `THROTTLE_MS`). -/
def THROTTLE_MS : ℚ := 200

/-- Rust `Vec::last_mut` update: mutates only the final element and is a
silent no-op on an empty list (src/chat.rs `if let Some(last) = m.last_mut()`). -/
def updateLast (f : Message → Message) : List Message → List Message
  | [] => []
  | [m] => [f m]
  | m :: m' :: rest => m :: updateLast f (m' :: rest)

/-- A `set_messages.update` call: applies the mutation and records the new
observable value of the message list. -/
def setMessages (st : CoordState) (f : List Message → List Message) : CoordState :=
  let m := f st.msgs
  { st with msgs := m, obs := st.obs ++ [m] }

/-- The `StreamedMessage::Content` branch (src/chat.rs lines 110-129): append
the delta to the buffer; flush to the visible message if this is the first
delta or more than `THROTTLE_MS` elapsed since the last flush. -/
def contentStep (st : CoordState) (now : ℚ) (content : String) : CoordState :=
  let buffer := st.buffer ++ content
  let should_update : Bool :=
    match st.last_update_time with
    | some last_time => decide (now - last_time > THROTTLE_MS)
    | none => true
  if should_update then
    let accumulated := st.accumulated_content ++ buffer
    let st' :=
      { st with
        accumulated_content := accumulated
        buffer := ""
        last_update_time := some now
        flushes := st.flushes ++ [now] }
    setMessages st' (updateLast (fun m => { m with content := accumulated }))
  else
    { st with buffer := buffer }

/-- The `StreamedMessage::Usage` branch (src/chat.rs lines 130-164): flush any
buffered content first, then look up the current model's pricing and write the
cost onto the last message. -/
def usageStep (cached_models : List DisplayModelInfo) (current_model_name : String)
    (st : CoordState) (u : Usage) : CoordState :=
  let st :=
    if st.buffer ≠ "" then
      let accumulated := st.accumulated_content ++ st.buffer
      let st' := { st with accumulated_content := accumulated, buffer := "" }
      setMessages st' (updateLast (fun m => { m with content := accumulated }))
    else st
  match cached_models.find? (fun m => m.id == current_model_name) with
  | some model_info =>
      let prompt_cost :=
        model_info.prompt_cost_usd_pm.getD 0 * u.prompt_tokens / 1000000
      let completion_cost :=
        model_info.completion_cost_usd_pm.getD 0 * u.completion_tokens / 1000000
      setMessages st
        (updateLast (fun m => { m with cost := some ⟨prompt_cost, completion_cost⟩ }))
  | none => st

/-- The cancellation branch (src/chat.rs lines 99-105): pop the placeholder /
partial assistant message. -/
def cancelStep (st : CoordState) : CoordState :=
  setMessages st (fun m => m.dropLast)

/-- The stream-error branch (src/chat.rs lines 166-172): set the error signal
and pop the partial assistant message. -/
def errStep (st : CoordState) (msg : String) : CoordState :=
  setMessages { st with error := some msg } (fun m => m.dropLast)

/-- The post-loop flush (src/chat.rs lines 182-189): after normal stream end,
flush any remaining buffered content. -/
def endFlush (st : CoordState) : CoordState :=
  if st.buffer ≠ "" then
    let accumulated := st.accumulated_content ++ st.buffer
    let st' := { st with accumulated_content := accumulated }
    setMessages st' (updateLast (fun m => { m with content := accumulated }))
  else st

/-- One iteration of the `select!` loop: handle the resolved event; `some o`
means the loop terminates with outcome `o`. -/
def loopStep (cached_models : List DisplayModelInfo) (current_model_name : String)
    (st : CoordState) : LoopEvent → CoordState × Option Outcome
  | .cancel => (cancelStep st, some .cancelled)
  | .item now (.content s) => (contentStep st now s, none)
  | .item _ (.usage u) => (usageStep cached_models current_model_name st u, none)
  | .itemErr msg => (errStep st msg, some .errored)
  | .streamEnd => (endFlush st, some .completed)

/-- The `select!` loop of `handle_llm_request`, consuming the resolved events
in order until a terminal one. -/
def loopRun (cached_models : List DisplayModelInfo) (current_model_name : String) :
    CoordState → List LoopEvent → CoordState × Outcome
  | st, [] => (st, .pending)
  | st, e :: rest =>
      match loopStep cached_models current_model_name st e with
      | (st', some o) => (st', o)
      | (st', none) => loopRun cached_models current_model_name st' rest

/-- The placeholder assistant message pushed on entry (src/chat.rs lines 71-79). -/
def mkResponseMessage (selected_prompt : Option SystemPrompt)
    (current_model_name : String) : Message :=
  { role := "assistant", content := "",
    prompt_name := selected_prompt.map (fun sp => sp.name),
    system_prompt_content := selected_prompt.map (fun sp => sp.prompt),
    model_name := some current_model_name,
    cost := none }

/-- `handle_llm_request` (src/chat.rs lines 60-198): push the placeholder
assistant message, then either fail opening the stream (error signal set,
placeholder popped) or run the select loop over the resolved events.
The network call `request_message_content_streamed` is abstracted by
`request_result`: an error, or the sequence of events its stream resolves to. -/
def handle_llm_request (messages0 : List Message) (selected_prompt : Option SystemPrompt)
    (cached_models : List DisplayModelInfo) (current_model_name : String)
    (request_result : Except String (List LoopEvent)) : CoordState × Outcome :=
  let msgs1 := messages0 ++ [mkResponseMessage selected_prompt current_model_name]
  let st0 : CoordState :=
    { msgs := msgs1, accumulated_content := "", buffer := "",
      last_update_time := none, error := none, obs := [msgs1], flushes := [] }
  match request_result with
  | .ok events => loopRun cached_models current_model_name st0 events
  | .error err =>
      ({ st0 with
         error := some err
         msgs := st0.msgs.dropLast
         obs := st0.obs ++ [st0.msgs.dropLast] }, .errored)

/-- Content-delta events from a list of (time, delta) pairs. -/
def contentEvents (cs : List (ℚ × String)) : List LoopEvent :=
  cs.map (fun p => LoopEvent.item p.1 (.content p.2))

/-- Concatenation of a list of strings, in order. -/
def concatAll (l : List String) : String := l.foldr (fun a b => a ++ b) ""

/-- String `s` starts with `p`. -/
def StartsWith (s p : String) : Prop := ∃ t, s = p ++ t

/-- Property of an observable message-list snapshot: whenever the assistant
message (the single message appended after `init`) carries a cost, its content
already starts with `pre`. -/
def ObsCostP (init : List Message) (pre : String) (m : List Message) : Prop :=
  ∀ b, m = init ++ [b] → b.cost.isSome → StartsWith b.content pre

/-! Persistence layer (src/persistence.rs). -/

/-- A stored chat session (src/persistence.rs `ChatSession`); millisecond
timestamps modelled as `ℚ`. -/
structure ChatSession where
  session_id : String
  messages : List Message
  name : Option String
  created_at_ms : ℚ
  updated_at_ms : ℚ
deriving Repr, DecidableEq

/-- `save_session` (src/persistence.rs lines 100-127): `put` into the object
store, i.e. insert-or-replace keyed by `session_id`.  The IndexedDB
transaction is atomic, so it is modelled as one pure store update. -/
def save_session (store : List ChatSession) (session : ChatSession) : List ChatSession :=
  store.filter (fun r => r.session_id != session.session_id) ++ [session]

/-- `load_session` (src/persistence.rs lines 130-163): point lookup by key;
absence is not an error. -/
def load_session (store : List ChatSession) (session_id : String) : Option ChatSession :=
  store.find? (fun r => r.session_id == session_id)

/-- IndexedDB index-cursor order: ascending index key (`updated_at_ms`), ties
in ascending primary key (`session_id`). -/
def indexLE (a b : ChatSession) : Bool :=
  decide (a.updated_at_ms < b.updated_at_ms ∨
    (a.updated_at_ms = b.updated_at_ms ∧ a.session_id ≤ b.session_id))

/-- `get_all_session_keys_sorted_by_update` (src/persistence.rs lines 166-207):
walk the `updated_at_ms` index with `CursorDirection::Prev` (descending) and
collect primary keys, i.e. newest first; only keys are read, never the session
bodies. -/
def get_all_session_keys_sorted_by_update (store : List ChatSession) : List String :=
  ((store.mergeSort indexLE).reverse).map (fun s => s.session_id)

/-- Schema version (src/persistence.rs `DB_VERSION`). -/
def DB_VERSION : Nat := 1

/-- State of the IndexedDB database file: whether the `chat_sessions` object
store and the `updated_at_ms` index exist, the stored schema version, and the
records. -/
structure DbState where
  hasStore : Bool
  hasIndex : Bool
  version : Nat
  records : List ChatSession
deriving Repr, DecidableEq

/-- IndexedDB `createObjectStore`: errors when the object store already
exists. -/
def create_object_store (db : DbState) : Except String DbState :=
  if db.hasStore then .error "ConstraintError: object store already exists"
  else .ok { db with hasStore := true }

/-- IndexedDB `createIndex`: errors when the index already exists. -/
def create_index (db : DbState) : Except String DbState :=
  if db.hasIndex then .error "ConstraintError: index already exists"
  else .ok { db with hasIndex := true }

/-- The `on_upgrade_needed` handler of `get_db` (src/persistence.rs lines
34-94): create the object store (and its index) only if missing; if the store
exists but the index is missing (older schema), create just the index. -/
def on_upgrade_needed (db : DbState) : Except String DbState :=
  if !db.hasStore then
    match create_object_store db with
    | .ok db' => create_index db'
    | .error e => .error e
  else if !db.hasIndex then create_index db
  else .ok db

/-- `get_db` (src/persistence.rs lines 29-97): open the database at
`DB_VERSION`; the upgrade handler runs only when the stored version is older. -/
def get_db (db : DbState) : Except String DbState :=
  if db.version < DB_VERSION then
    match on_upgrade_needed db with
    | .ok db' => .ok { db' with version := DB_VERSION }
    | .error e => .error e
  else .ok db

/-- Iterated store opens: `get_db` called `n` times in sequence. -/
def open_many : Nat → DbState → Except String DbState
  | 0, db => .ok db
  | n + 1, db =>
      match get_db db with
      | .ok db' => open_many n db'
      | .error e => .error e

/-! Session manager (src/main.rs). -/

/-- The debounced save closure (src/main.rs lines 136-169): skip empty ids and
empty message lists; read the existing record to preserve `created_at_ms`
(falling back to now), refresh `updated_at_ms` to now, and `put` the record. -/
def debounced_save_session (store : List ChatSession) (session_id_to_save : String)
    (msgs_to_save : List Message) (now : ℚ) : List ChatSession :=
  if session_id_to_save = "" ∨ msgs_to_save = [] then store
  else
    let existing := load_session store session_id_to_save
    let created_at := (existing.map (fun s => s.created_at_ms)).getD now
    save_session store
      { session_id := session_id_to_save, messages := msgs_to_save,
        name := none, created_at_ms := created_at, updated_at_ms := now }

/-- UI page (src/main.rs `Page`). -/
inductive AppPage where
  | chatPage
  | settingsPage
deriving Repr, DecidableEq

/-- In-memory app state touched by the `load_session` action of src/main.rs. -/
structure AppState where
  current_session_id : String
  messages : List Message
  selected_prompt_name : Option String
  error : Option String
  current_session_index : Option Nat
  page : AppPage
deriving Repr, DecidableEq

/-- The `load_session` action (src/main.rs lines 81-114): on success replace
the current session state wholesale; on not-found only report the condition in
the error slot. -/
def load_session_action (store : List ChatSession) (sorted_session_ids : List String)
    (st : AppState) (session_id_to_load : String) : AppState :=
  match load_session store session_id_to_load with
  | some session =>
      { st with
        current_session_id := session.session_id,
        messages := session.messages,
        selected_prompt_name := none,
        error := none,
        current_session_index :=
          sorted_session_ids.findIdx? (fun id => id == session.session_id),
        page := .chatPage }
  | none =>
      { st with error := some ("Session " ++ session_id_to_load ++ " not found.") }

/-! LLM request boundary (src/llm.rs, src/chat/actions.rs). -/

/-- Request configuration (src/llm.rs `Model`). -/
structure LlmModel where
  model : String
  seed : Option Int
  temperature : Option ℚ
deriving Repr, DecidableEq

/-- Wire message (src/llm.rs `Message`). -/
structure LlmMessage where
  role : String
  content : String
deriving Repr, DecidableEq

/-- Result of `request_message_content_streamed`: either rejected before any
network interaction, or a connection was opened and a stream returned. -/
inductive LlmRequestOutcome where
  | rejected (msg : String)
  | streamOpened
deriving Repr, DecidableEq

/-- `request_message_content_streamed` (src/llm.rs lines 40-104): an empty API
key is rejected up front, before the client is constructed; `streamOpened`
abstracts the code path that builds the client and opens the connection. -/
def request_message_content_streamed (messages : List LlmMessage)
    (model_config : LlmModel) (api_key : String) : LlmRequestOutcome :=
  if api_key.isEmpty then .rejected "OpenRouter API key is missing."
  else .streamOpened

/-- Observable result of `execute_llm_request` (src/chat/actions.rs lines
119-192) restricted to the credential gate: the error slot, and whether
`handle_llm_request` (hence any stream consumption) was started. -/
structure ExecuteResult where
  error : Option String
  llm_request_started : Bool
deriving Repr, DecidableEq

/-- The credential gate of `execute_llm_request` (src/chat/actions.rs lines
149-186): with an empty key the error slot is set and `handle_llm_request` is
never invoked. -/
def execute_llm_request (api_key : String) : ExecuteResult :=
  if api_key.isEmpty then
    { error := some "No API key provided. Please add one in Settings.",
      llm_request_started := false }
  else
    { error := none, llm_request_started := true }

/-! Basic lemmas about the mutation primitives. -/

/-- `last_mut` on a list with a distinguished last element rewrites only it. -/
theorem updateLast_append (f : Message → Message) (l : List Message) (a : Message) :
    updateLast f (l ++ [a]) = l ++ [f a] := by
  induction l with
  | nil => rfl
  | cons x xs ih =>
      cases xs with
      | nil => rfl
      | cons y ys => simpa [updateLast] using ih

theorem loopRun_nil (cm : List DisplayModelInfo) (mn : String) (st : CoordState) :
    loopRun cm mn st [] = (st, .pending) := rfl

theorem loopRun_content (cm : List DisplayModelInfo) (mn : String) (st : CoordState)
    (t : ℚ) (s : String) (evs : List LoopEvent) :
    loopRun cm mn st (LoopEvent.item t (.content s) :: evs) =
      loopRun cm mn (contentStep st t s) evs := rfl

theorem loopRun_usage (cm : List DisplayModelInfo) (mn : String) (st : CoordState)
    (t : ℚ) (u : Usage) (evs : List LoopEvent) :
    loopRun cm mn st (LoopEvent.item t (.usage u) :: evs) =
      loopRun cm mn (usageStep cm mn st u) evs := rfl

theorem loopRun_cancel (cm : List DisplayModelInfo) (mn : String) (st : CoordState)
    (evs : List LoopEvent) :
    loopRun cm mn st (LoopEvent.cancel :: evs) = (cancelStep st, .cancelled) := rfl

theorem loopRun_err (cm : List DisplayModelInfo) (mn : String) (st : CoordState)
    (msg : String) (evs : List LoopEvent) :
    loopRun cm mn st (LoopEvent.itemErr msg :: evs) = (errStep st msg, .errored) := rfl

theorem loopRun_end (cm : List DisplayModelInfo) (mn : String) (st : CoordState)
    (evs : List LoopEvent) :
    loopRun cm mn st (LoopEvent.streamEnd :: evs) = (endFlush st, .completed) := rfl

/-- Evolution of the coordinator across a run of consecutive content deltas:
the message list keeps the shape `init ++ [assistant]`, the assistant message
mirrors `accumulated_content`, committed plus buffered text extends by the
deltas in arrival order, delta-driven flushes stay more than `THROTTLE_MS`
apart with the first delta flushing immediately, and every new observable
snapshot keeps the assistant message's cost. -/
theorem loopRun_content_phase (cm : List DisplayModelInfo) (mn : String)
    (init : List Message) (cs : List (ℚ × String)) :
    ∀ (tail : List LoopEvent) (st : CoordState) (a : Message),
      st.msgs = init ++ [a] → a.content = st.accumulated_content →
      st.last_update_time = st.flushes.getLast? →
      ∃ st' a',
        loopRun cm mn st (contentEvents cs ++ tail) = loopRun cm mn st' tail ∧
        st'.msgs = init ++ [a'] ∧
        a'.content = st'.accumulated_content ∧
        a'.cost = a.cost ∧
        st'.accumulated_content ++ st'.buffer =
          st.accumulated_content ++ st.buffer ++ concatAll (cs.map Prod.snd) ∧
        st'.last_update_time = st'.flushes.getLast? ∧
        (List.Chain' (fun x y => THROTTLE_MS < y - x) st.flushes →
          List.Chain' (fun x y => THROTTLE_MS < y - x) st'.flushes) ∧
        st'.flushes.head? = st.flushes.head?.or (cs.head?.map Prod.fst) ∧
        (∀ m ∈ st'.obs, m ∈ st.obs ∨ ∃ b, m = init ++ [b] ∧ b.cost = a.cost) := by
  induction cs with
  | nil =>
      intro tail st a hm hc hl
      refine ⟨st, a, rfl, hm, hc, rfl, ?_, hl, fun h => h, ?_, fun m hmem => Or.inl hmem⟩
      · simp [concatAll, String.append_empty]
      · simp [Option.or_none]
  | cons p cs ih =>
      obtain ⟨t, s⟩ := p
      intro tail st a hm hc hl
      by_cases hfl : st.flushes = []
      · -- first delta of the run: `last_update_time` is `none`, flush now
        have hlut : st.last_update_time = none := by
          rw [hl, hfl]; rfl
        have hstep : contentStep st t s =
            setMessages
              { st with
                accumulated_content := st.accumulated_content ++ (st.buffer ++ s)
                buffer := ""
                last_update_time := some t
                flushes := st.flushes ++ [t] }
              (updateLast (fun m =>
                { m with content := st.accumulated_content ++ (st.buffer ++ s) })) := by
          simp [contentStep, hlut]
        set a1 : Message :=
          { a with content := st.accumulated_content ++ (st.buffer ++ s) } with ha1
        obtain ⟨st', a', hrun, h2, h3, h4, h5, h6, h7, h8, h9⟩ :=
          ih tail (contentStep st t s) a1
            (by rw [hstep]; simp [setMessages, hm, updateLast_append])
            (by rw [hstep]; simp [setMessages, ha1])
            (by rw [hstep]; simp [setMessages, List.getLast?_concat])
        refine ⟨st', a', ?_, h2, h3, ?_, ?_, h6, ?_, ?_, ?_⟩
        · simpa [contentEvents] using hrun
        · rw [h4, ha1]
        · rw [h5, hstep]
          simp [setMessages, concatAll, String.append_assoc, String.append_empty]
        · intro _
          apply h7
          rw [hstep]
          simp [setMessages, hfl, List.chain'_singleton]
        · rw [h8, hstep]
          simp [setMessages, hfl, Option.or_none]
        · intro m hmem
          rcases h9 m hmem with hmem' | ⟨b, hb, hbc⟩
          · rw [hstep] at hmem'
            simp [setMessages, hm, updateLast_append] at hmem'
            rcases hmem' with hmem'' | hmem''
            · exact Or.inl hmem''
            · exact Or.inr ⟨a1, by rw [hmem''], rfl⟩
          · exact Or.inr ⟨b, hb, by rw [hbc, ha1]⟩
      · -- later delta: `last_update_time` holds the last flush time
        have hsome : ∃ lt, st.flushes.getLast? = some lt := by
          cases hq : st.flushes.getLast? with
          | none => exact absurd (List.getLast?_eq_none_iff.mp hq) hfl
          | some lt => exact ⟨lt, rfl⟩
        obtain ⟨lt, hlt⟩ := hsome
        have hlut : st.last_update_time = some lt := by rw [hl, hlt]
        by_cases hthr : THROTTLE_MS < t - lt
        · -- throttle window elapsed: flush
          have hstep : contentStep st t s =
              setMessages
                { st with
                  accumulated_content := st.accumulated_content ++ (st.buffer ++ s)
                  buffer := ""
                  last_update_time := some t
                  flushes := st.flushes ++ [t] }
                (updateLast (fun m =>
                  { m with content := st.accumulated_content ++ (st.buffer ++ s) })) := by
            simp [contentStep, hlut, hthr]
          set a1 : Message :=
            { a with content := st.accumulated_content ++ (st.buffer ++ s) } with ha1
          obtain ⟨st', a', hrun, h2, h3, h4, h5, h6, h7, h8, h9⟩ :=
            ih tail (contentStep st t s) a1
              (by rw [hstep]; simp [setMessages, hm, updateLast_append])
              (by rw [hstep]; simp [setMessages, ha1])
              (by rw [hstep]; simp [setMessages, List.getLast?_concat])
          refine ⟨st', a', ?_, h2, h3, ?_, ?_, h6, ?_, ?_, ?_⟩
          · simpa [contentEvents] using hrun
          · rw [h4, ha1]
          · rw [h5, hstep]
            simp [setMessages, concatAll, String.append_assoc, String.append_empty]
          · intro hch
            apply h7
            rw [hstep]
            simp only [setMessages]
            rw [List.chain'_append]
            refine ⟨hch, List.chain'_singleton t, ?_⟩
            intro x hx y hy
            rw [hlt] at hx
            simp at hx hy
            rw [← hx, ← hy]
            exact hthr
          · rw [h8, hstep]
            simp only [setMessages]
            rw [List.head?_append]
            cases hcons : st.flushes with
            | nil => exact absurd hcons hfl
            | cons f0 fl' => simp [Option.or_assoc]
          · intro m hmem
            rcases h9 m hmem with hmem' | ⟨b, hb, hbc⟩
            · rw [hstep] at hmem'
              simp [setMessages, hm, updateLast_append] at hmem'
              rcases hmem' with hmem'' | hmem''
              · exact Or.inl hmem''
              · exact Or.inr ⟨a1, by rw [hmem''], rfl⟩
            · exact Or.inr ⟨b, hb, by rw [hbc, ha1]⟩
        · -- inside the throttle window: accumulate only
          have hstep : contentStep st t s = { st with buffer := st.buffer ++ s } := by
            simp [contentStep, hlut, hthr]
          obtain ⟨st', a', hrun, h2, h3, h4, h5, h6, h7, h8, h9⟩ :=
            ih tail (contentStep st t s) a
              (by rw [hstep]; exact hm) (by rw [hstep]; exact hc)
              (by rw [hstep]; exact hl)
          refine ⟨st', a', ?_, h2, h3, h4, ?_, h6, ?_, ?_, ?_⟩
          · simpa [contentEvents] using hrun
          · rw [h5, hstep]
            simp [concatAll, String.append_assoc]
          · intro hch
            apply h7
            rw [hstep]
            exact hch
          · rw [h8, hstep]
            cases hcons : st.flushes with
            | nil => exact absurd hcons hfl
            | cons f0 fl' => simp
          · intro m hmem
            rcases h9 m hmem with hmem' | hb
            · rw [hstep] at hmem'
              exact Or.inl hmem'
            · exact Or.inr hb

theorem startsWith_refl (s : String) : StartsWith s s :=
  ⟨"", (String.append_empty s).symm⟩

theorem startsWith_empty (s : String) : StartsWith s "" :=
  ⟨s, (String.empty_append s).symm⟩

theorem startsWith_append (s t p : String) (h : StartsWith s p) :
    StartsWith (s ++ t) p := by
  obtain ⟨r, hr⟩ := h
  exact ⟨r ++ t, by rw [hr, String.append_assoc]⟩

/-- Case analysis of the content-delta branch: either the delta is only
buffered, or a flush occurs. -/
theorem contentStep_cases (st : CoordState) (t : ℚ) (s : String) :
    contentStep st t s = { st with buffer := st.buffer ++ s } ∨
    contentStep st t s =
      setMessages
        { st with
          accumulated_content := st.accumulated_content ++ (st.buffer ++ s)
          buffer := ""
          last_update_time := some t
          flushes := st.flushes ++ [t] }
        (updateLast (fun m =>
          { m with content := st.accumulated_content ++ (st.buffer ++ s) })) := by
  cases hl : st.last_update_time with
  | none => right; simp [contentStep, hl]
  | some lt =>
      by_cases hd : THROTTLE_MS < t - lt
      · right; simp [contentStep, hl, hd]
      · left; simp [contentStep, hl, hd]

/-- The content-delta branch preserves the list shape and the mirror between
the assistant message and `accumulated_content`, keeps committed plus buffered
text an extension of `pre`, and only adds snapshots whose assistant message
content starts with `pre`. -/
theorem contentStep_pres (st : CoordState) (t : ℚ) (s : String) (init : List Message)
    (a : Message) (pre : String)
    (hm : st.msgs = init ++ [a])
    (hc : a.content = st.accumulated_content)
    (hp : StartsWith (st.accumulated_content ++ st.buffer) pre) :
    ∃ a2, (contentStep st t s).msgs = init ++ [a2] ∧
      a2.content = (contentStep st t s).accumulated_content ∧
      StartsWith
        ((contentStep st t s).accumulated_content ++ (contentStep st t s).buffer) pre ∧
      (∀ m ∈ (contentStep st t s).obs,
        m ∈ st.obs ∨ ∃ b, m = init ++ [b] ∧ StartsWith b.content pre) := by
  have hps : StartsWith (st.accumulated_content ++ (st.buffer ++ s)) pre := by
    rw [← String.append_assoc]
    exact startsWith_append _ _ _ hp
  rcases contentStep_cases st t s with hstep | hstep
  · refine ⟨a, ?_, ?_, ?_, ?_⟩
    · rw [hstep]; exact hm
    · rw [hstep]; exact hc
    · rw [hstep]; exact hps
    · intro m hmem
      rw [hstep] at hmem
      exact Or.inl hmem
  · refine ⟨{ a with content := st.accumulated_content ++ (st.buffer ++ s) }, ?_, ?_, ?_, ?_⟩
    · rw [hstep]; simp [setMessages, hm, updateLast_append]
    · rw [hstep]; simp [setMessages]
    · rw [hstep]
      simpa [setMessages, String.append_empty] using hps
    · intro m hmem
      rw [hstep] at hmem
      simp [setMessages, hm, updateLast_append] at hmem
      rcases hmem with hmem' | hmem'
      · exact Or.inl hmem'
      · exact Or.inr
          ⟨{ a with content := st.accumulated_content ++ (st.buffer ++ s) },
           by rw [hmem'], hps⟩

/-- The usage branch preserves the list shape and the content mirror, keeps
committed plus buffered text an extension of `pre`, and only adds snapshots
whose assistant message content starts with `pre`. -/
theorem usageStep_pres (cm : List DisplayModelInfo) (mn : String) (st : CoordState)
    (u : Usage) (init : List Message) (a : Message) (pre : String)
    (hm : st.msgs = init ++ [a])
    (hc : a.content = st.accumulated_content)
    (hp : StartsWith (st.accumulated_content ++ st.buffer) pre) :
    ∃ a2, (usageStep cm mn st u).msgs = init ++ [a2] ∧
      a2.content = (usageStep cm mn st u).accumulated_content ∧
      StartsWith
        ((usageStep cm mn st u).accumulated_content ++ (usageStep cm mn st u).buffer) pre ∧
      (∀ m ∈ (usageStep cm mn st u).obs,
        m ∈ st.obs ∨ ∃ b, m = init ++ [b] ∧ StartsWith b.content pre) := by
  by_cases hb : st.buffer = ""
  · have hacc : StartsWith st.accumulated_content pre := by
      rw [hb, String.append_empty] at hp
      exact hp
    cases hfind : cm.find? (fun m => m.id == mn) with
    | none =>
        refine ⟨a, ?_, ?_, ?_, ?_⟩
        · simp [usageStep, hb, hfind, hm]
        · simp [usageStep, hb, hfind]
          exact hc
        · simp [usageStep, hb, hfind]
          exact hacc
        · intro m hmem
          simp [usageStep, hb, hfind] at hmem
          exact Or.inl hmem
    | some mi =>
        refine ⟨{ a with cost := some ⟨mi.prompt_cost_usd_pm.getD 0 * u.prompt_tokens / 1000000, mi.completion_cost_usd_pm.getD 0 * u.completion_tokens / 1000000⟩ }, ?_, ?_, ?_, ?_⟩
        · simp [usageStep, hb, hfind, setMessages, hm, updateLast_append]
        · simp [usageStep, hb, hfind, setMessages]
          exact hc
        · simp [usageStep, hb, hfind, setMessages]
          exact hacc
        · intro m hmem
          simp [usageStep, hb, hfind, setMessages, hm, updateLast_append] at hmem
          rcases hmem with hmem' | hmem'
          · exact Or.inl hmem'
          · refine Or.inr ⟨_, by rw [hmem'], ?_⟩
            show StartsWith a.content pre
            rw [hc]
            exact hacc
  · -- buffered content is flushed before the cost is looked up
    cases hfind : cm.find? (fun m => m.id == mn) with
    | none =>
        refine ⟨{ a with content := st.accumulated_content ++ st.buffer }, ?_, ?_, ?_, ?_⟩
        · simp [usageStep, hb, hfind, setMessages, hm, updateLast_append]
        · simp [usageStep, hb, hfind, setMessages]
        · simp [usageStep, hb, hfind, setMessages, String.append_empty]
          exact hp
        · intro m hmem
          simp [usageStep, hb, hfind, setMessages, hm, updateLast_append] at hmem
          rcases hmem with hmem' | hmem'
          · exact Or.inl hmem'
          · exact Or.inr ⟨_, by rw [hmem'], hp⟩
    | some mi =>
        refine ⟨{ a with content := st.accumulated_content ++ st.buffer, cost := some ⟨mi.prompt_cost_usd_pm.getD 0 * u.prompt_tokens / 1000000, mi.completion_cost_usd_pm.getD 0 * u.completion_tokens / 1000000⟩ }, ?_, ?_, ?_, ?_⟩
        · simp [usageStep, hb, hfind, setMessages, hm, updateLast_append]
        · simp [usageStep, hb, hfind, setMessages]
        · simp [usageStep, hb, hfind, setMessages, String.append_empty]
          exact hp
        · intro m hmem
          simp [usageStep, hb, hfind, setMessages, hm, updateLast_append] at hmem
          rcases hmem with hmem' | hmem' | hmem'
          · exact Or.inl hmem'
          · exact Or.inr ⟨_, by rw [hmem'], hp⟩
          · exact Or.inr ⟨_, by rw [hmem'], hp⟩

/-- Once committed-plus-buffered text extends `pre` and the assistant message
mirrors `accumulated_content`, every observable snapshot produced by the rest
of the run satisfies `ObsCostP init pre`. -/
theorem loopRun_obs_cost (cm : List DisplayModelInfo) (mn : String)
    (init : List Message) (pre : String) (events : List LoopEvent) :
    ∀ (st : CoordState) (a : Message),
      st.msgs = init ++ [a] → a.content = st.accumulated_content →
      StartsWith (st.accumulated_content ++ st.buffer) pre →
      (∀ m ∈ st.obs, ObsCostP init pre m) →
      ∀ m ∈ (loopRun cm mn st events).1.obs, ObsCostP init pre m := by
  induction events with
  | nil => intro st a hm hc hp hobs m hmem; exact hobs m hmem
  | cons e evs ih =>
      intro st a hm hc hp hobs
      have hP : ∀ b : Message, StartsWith b.content pre →
          ObsCostP init pre (init ++ [b]) := by
        intro b hb b' hb' _
        obtain rfl : b = b' := by
          have h1 := List.append_cancel_left hb'
          simpa using h1
        exact hb
      have hP0 : ObsCostP init pre init := by
        intro b hb _
        simp at hb
      cases e with
      | cancel =>
          intro m hmem
          rw [loopRun_cancel] at hmem
          simp [cancelStep, setMessages, hm, List.dropLast_concat] at hmem
          rcases hmem with hmem' | hmem'
          · exact hobs m hmem'
          · rw [hmem']; exact hP0
      | itemErr msg =>
          intro m hmem
          rw [loopRun_err] at hmem
          simp [errStep, setMessages, hm, List.dropLast_concat] at hmem
          rcases hmem with hmem' | hmem'
          · exact hobs m hmem'
          · rw [hmem']; exact hP0
      | streamEnd =>
          intro m hmem
          rw [loopRun_end] at hmem
          by_cases hb : st.buffer = ""
          · simp [endFlush, hb] at hmem
            exact hobs m hmem
          · simp [endFlush, hb, setMessages, hm, updateLast_append] at hmem
            rcases hmem with hmem' | hmem'
            · exact hobs m hmem'
            · rw [hmem']
              exact hP _ hp
      | item now sm =>
          cases sm with
          | content s =>
              obtain ⟨a2, hm2, hc2, hp2, hobs2⟩ :=
                contentStep_pres st now s init a pre hm hc hp
              rw [loopRun_content]
              refine ih _ a2 hm2 hc2 hp2 ?_
              intro m hmem
              rcases hobs2 m hmem with h | ⟨b, hb, hbp⟩
              · exact hobs m h
              · rw [hb]; exact hP b hbp
          | usage u =>
              obtain ⟨a2, hm2, hc2, hp2, hobs2⟩ :=
                usageStep_pres cm mn st u init a pre hm hc hp
              rw [loopRun_usage]
              refine ih _ a2 hm2 hc2 hp2 ?_
              intro m hmem
              rcases hobs2 m hmem with h | ⟨b, hb, hbp⟩
              · exact hobs m h
              · rw [hb]; exact hP b hbp

/-- Frame property of one coordinator run: every observable snapshot extends
the pre-existing messages `init` unchanged, with at most one extra message. -/
theorem loopRun_frame (cm : List DisplayModelInfo) (mn : String)
    (init : List Message) (events : List LoopEvent) :
    ∀ (st : CoordState) (a : Message),
      st.msgs = init ++ [a] → a.content = st.accumulated_content →
      (∀ m ∈ st.obs, init <+: m ∧ m.length ≤ init.length + 1) →
      ∀ m ∈ (loopRun cm mn st events).1.obs,
        init <+: m ∧ m.length ≤ init.length + 1 := by
  induction events with
  | nil => intro st a hm hc hobs m hmem; exact hobs m hmem
  | cons e evs ih =>
      intro st a hm hc hobs
      have hP1 : ∀ b : Message,
          init <+: (init ++ [b]) ∧ (init ++ [b]).length ≤ init.length + 1 := by
        intro b
        exact ⟨List.prefix_append init [b], by simp⟩
      have hP0 : init <+: init ∧ init.length ≤ init.length + 1 :=
        ⟨List.prefix_refl init, by omega⟩
      cases e with
      | cancel =>
          intro m hmem
          rw [loopRun_cancel] at hmem
          simp [cancelStep, setMessages, hm, List.dropLast_concat] at hmem
          rcases hmem with hmem' | hmem'
          · exact hobs m hmem'
          · rw [hmem']; exact hP0
      | itemErr msg =>
          intro m hmem
          rw [loopRun_err] at hmem
          simp [errStep, setMessages, hm, List.dropLast_concat] at hmem
          rcases hmem with hmem' | hmem'
          · exact hobs m hmem'
          · rw [hmem']; exact hP0
      | streamEnd =>
          intro m hmem
          rw [loopRun_end] at hmem
          by_cases hb : st.buffer = ""
          · simp [endFlush, hb] at hmem
            exact hobs m hmem
          · simp [endFlush, hb, setMessages, hm, updateLast_append] at hmem
            rcases hmem with hmem' | hmem'
            · exact hobs m hmem'
            · rw [hmem']; exact hP1 _
      | item now sm =>
          cases sm with
          | content s =>
              obtain ⟨a2, hm2, hc2, _, hobs2⟩ :=
                contentStep_pres st now s init a "" hm hc (startsWith_empty _)
              rw [loopRun_content]
              refine ih _ a2 hm2 hc2 ?_
              intro m hmem
              rcases hobs2 m hmem with h | ⟨b, hb, _⟩
              · exact hobs m h
              · rw [hb]; exact hP1 b
          | usage u =>
              obtain ⟨a2, hm2, hc2, _, hobs2⟩ :=
                usageStep_pres cm mn st u init a "" hm hc (startsWith_empty _)
              rw [loopRun_usage]
              refine ih _ a2 hm2 hc2 ?_
              intro m hmem
              rcases hobs2 m hmem with h | ⟨b, hb, _⟩
              · exact hobs m h
              · rw [hb]; exact hP1 b

theorem endFlush_flushes (st : CoordState) : (endFlush st).flushes = st.flushes := by
  by_cases hb : st.buffer = "" <;> simp [endFlush, hb, setMessages]

theorem endFlush_id (st : CoordState) (hb : st.buffer = "") : endFlush st = st := by
  simp [endFlush, hb]

/-- After normal stream end, the visible content of the assistant message is
the whole committed-plus-buffered text. -/
theorem endFlush_last_content (st : CoordState) (init : List Message) (a : Message)
    (hm : st.msgs = init ++ [a]) (hc : a.content = st.accumulated_content) :
    (endFlush st).msgs.getLast?.map Message.content =
      some (st.accumulated_content ++ st.buffer) := by
  by_cases hb : st.buffer = ""
  · simp [endFlush, hb, hm, List.getLast?_concat, hc, String.append_empty]
  · simp [endFlush, hb, setMessages, hm, updateLast_append, List.getLast?_concat]

/-- When the current model is found in the cached list, the usage branch
writes the computed cost onto the assistant message and leaves the buffer
flushed. -/
theorem usageStep_cost (cm : List DisplayModelInfo) (mn : String) (st : CoordState)
    (u : Usage) (mi : DisplayModelInfo) (init : List Message) (a : Message)
    (hm : st.msgs = init ++ [a])
    (hfind : cm.find? (fun m => m.id == mn) = some mi) :
    ∃ a2, (usageStep cm mn st u).msgs = init ++ [a2] ∧
      a2.cost = some ⟨mi.prompt_cost_usd_pm.getD 0 * u.prompt_tokens / 1000000, mi.completion_cost_usd_pm.getD 0 * u.completion_tokens / 1000000⟩ ∧
      (usageStep cm mn st u).buffer = "" := by
  by_cases hb : st.buffer = ""
  · refine ⟨{ a with cost := some ⟨mi.prompt_cost_usd_pm.getD 0 * u.prompt_tokens / 1000000, mi.completion_cost_usd_pm.getD 0 * u.completion_tokens / 1000000⟩ }, ?_, rfl, ?_⟩
    · simp [usageStep, hb, hfind, setMessages, hm, updateLast_append]
    · simp [usageStep, hb, hfind, setMessages]
  · refine ⟨{ a with content := st.accumulated_content ++ st.buffer, cost := some ⟨mi.prompt_cost_usd_pm.getD 0 * u.prompt_tokens / 1000000, mi.completion_cost_usd_pm.getD 0 * u.completion_tokens / 1000000⟩ }, ?_, rfl, ?_⟩
    · simp [usageStep, hb, hfind, setMessages, hm, updateLast_append]
    · simp [usageStep, hb, hfind, setMessages]

theorem getLastD_mem {α : Type} (l : List α) (d : α) (h : l ≠ []) :
    l.getLast?.getD d ∈ l := by
  rw [List.getLast?_eq_getLast l h]
  exact List.getLast_mem h

/-- C1: for every stream of content deltas consumed by `handle_llm_request`
that ends normally, the run completes; the UI-visible content is updated
immediately at the very first delta (the first flush carries the first
delta's wall-clock time, and there is a flush exactly when there is a delta);
consecutive delta-driven flushes are always more than 200ms apart regardless
of delta frequency; and the final visible content is the concatenation of all
deltas in arrival order. -/
theorem C1_first_delta_immediate_then_throttled (init : List Message)
    (sp : Option SystemPrompt) (cm : List DisplayModelInfo) (mn : String)
    (cs : List (ℚ × String)) :
    (handle_llm_request init sp cm mn (.ok (contentEvents cs ++ [LoopEvent.streamEnd]))).2 = Outcome.completed ∧
    (handle_llm_request init sp cm mn (.ok (contentEvents cs ++ [LoopEvent.streamEnd]))).1.flushes.head? = cs.head?.map Prod.fst ∧
    List.Chain' (fun x y => THROTTLE_MS < y - x)
      (handle_llm_request init sp cm mn (.ok (contentEvents cs ++ [LoopEvent.streamEnd]))).1.flushes ∧
    (handle_llm_request init sp cm mn (.ok (contentEvents cs ++ [LoopEvent.streamEnd]))).1.msgs.getLast?.map Message.content =
      some (concatAll (cs.map Prod.snd)) := by
  obtain ⟨st', a', hrun, h2, h3, h4, h5, h6, h7, h8, h9⟩ :=
    loopRun_content_phase cm mn init cs [LoopEvent.streamEnd]
      { msgs := init ++ [mkResponseMessage sp mn], accumulated_content := "", buffer := "", last_update_time := none, error := none, obs := [init ++ [mkResponseMessage sp mn]], flushes := [] }
      (mkResponseMessage sp mn) rfl rfl rfl
  have hh : handle_llm_request init sp cm mn (.ok (contentEvents cs ++ [LoopEvent.streamEnd])) =
      (endFlush st', Outcome.completed) := by
    show loopRun cm mn
      { msgs := init ++ [mkResponseMessage sp mn], accumulated_content := "", buffer := "", last_update_time := none, error := none, obs := [init ++ [mkResponseMessage sp mn]], flushes := [] }
      (contentEvents cs ++ [LoopEvent.streamEnd]) = (endFlush st', Outcome.completed)
    rw [hrun, loopRun_end]
  refine ⟨?_, ?_, ?_, ?_⟩
  · rw [hh]
  · rw [hh]
    show (endFlush st').flushes.head? = cs.head?.map Prod.fst
    rw [endFlush_flushes, h8]
    simp
  · rw [hh]
    show List.Chain' (fun x y => THROTTLE_MS < y - x) (endFlush st').flushes
    rw [endFlush_flushes]
    exact h7 List.chain'_nil
  · rw [hh]
    show (endFlush st').msgs.getLast?.map Message.content = some (concatAll (cs.map Prod.snd))
    rw [endFlush_last_content st' init a' h2 h3, h5]
    simp [String.empty_append]

/-- C2: for any in-flight request whose stream has emitted one or more content
deltas, if cancellation resolves before the stream completes, the placeholder
assistant message is removed entirely — the message list returns to its exact
pre-request value — and the run terminates with the cancelled outcome. -/
theorem C2_cancellation_discards_partial (init : List Message)
    (sp : Option SystemPrompt) (cm : List DisplayModelInfo) (mn : String)
    (cs : List (ℚ × String)) (rest : List LoopEvent) (hne : cs ≠ []) :
    (handle_llm_request init sp cm mn (.ok (contentEvents cs ++ LoopEvent.cancel :: rest))).1.msgs = init ∧
    (handle_llm_request init sp cm mn (.ok (contentEvents cs ++ LoopEvent.cancel :: rest))).2 = Outcome.cancelled := by
  obtain ⟨st', a', hrun, h2, _⟩ :=
    loopRun_content_phase cm mn init cs (LoopEvent.cancel :: rest)
      { msgs := init ++ [mkResponseMessage sp mn], accumulated_content := "", buffer := "", last_update_time := none, error := none, obs := [init ++ [mkResponseMessage sp mn]], flushes := [] }
      (mkResponseMessage sp mn) rfl rfl rfl
  have hh : handle_llm_request init sp cm mn (.ok (contentEvents cs ++ LoopEvent.cancel :: rest)) =
      (cancelStep st', Outcome.cancelled) := by
    show loopRun cm mn
      { msgs := init ++ [mkResponseMessage sp mn], accumulated_content := "", buffer := "", last_update_time := none, error := none, obs := [init ++ [mkResponseMessage sp mn]], flushes := [] }
      (contentEvents cs ++ LoopEvent.cancel :: rest) = (cancelStep st', Outcome.cancelled)
    rw [hrun, loopRun_cancel]
  constructor
  · rw [hh]
    show (cancelStep st').msgs = init
    simp [cancelStep, setMessages, h2, List.dropLast_concat]
  · rw [hh]

/-- Witness for C2: one delta "Hi" at time 0, then cancellation. -/
theorem C2_cancellation_discards_partial_witness :
    ([((0 : ℚ), "Hi")] ≠ ([] : List (ℚ × String))) ∧
    ((handle_llm_request [] none [] "m" (.ok (contentEvents [((0 : ℚ), "Hi")] ++ LoopEvent.cancel :: []))).1.msgs = [] ∧
     (handle_llm_request [] none [] "m" (.ok (contentEvents [((0 : ℚ), "Hi")] ++ LoopEvent.cancel :: []))).2 = Outcome.cancelled) :=
  ⟨by simp, C2_cancellation_discards_partial [] none [] "m" [((0 : ℚ), "Hi")] [] (by simp)⟩

/-- C3: in every stream where a usage report arrives after some content
deltas, there is no observable message-list state in which the assistant
message's cost is set while a delta that preceded the usage report is missing
from its content: whenever the cost is set, the content starts with the
concatenation of all deltas that preceded the usage report. -/
theorem C3_usage_flushed_before_cost (init : List Message) (sp : Option SystemPrompt)
    (cm : List DisplayModelInfo) (mn : String) (cs : List (ℚ × String)) (tu : ℚ)
    (u : Usage) (rest : List LoopEvent) (m : List Message) (a : Message)
    (hmem : m ∈ (handle_llm_request init sp cm mn (.ok (contentEvents cs ++ LoopEvent.item tu (.usage u) :: rest))).1.obs)
    (hshape : m = init ++ [a]) (hcost : a.cost.isSome = true) :
    StartsWith a.content (concatAll (cs.map Prod.snd)) := by
  obtain ⟨st', a', hrun, h2, h3, h4, h5, h6, h7, h8, h9⟩ :=
    loopRun_content_phase cm mn init cs (LoopEvent.item tu (.usage u) :: rest)
      { msgs := init ++ [mkResponseMessage sp mn], accumulated_content := "", buffer := "", last_update_time := none, error := none, obs := [init ++ [mkResponseMessage sp mn]], flushes := [] }
      (mkResponseMessage sp mn) rfl rfl rfl
  have hPnone : ∀ b : Message, b.cost = none →
      ObsCostP init (concatAll (cs.map Prod.snd)) (init ++ [b]) := by
    intro b hbc b' hb' hbs
    obtain rfl : b = b' := by simpa using List.append_cancel_left hb'
    rw [hbc] at hbs
    simp at hbs
  have hPpre : ∀ b : Message, StartsWith b.content (concatAll (cs.map Prod.snd)) →
      ObsCostP init (concatAll (cs.map Prod.snd)) (init ++ [b]) := by
    intro b hb b' hb' _
    obtain rfl : b = b' := by simpa using List.append_cancel_left hb'
    exact hb
  have hpre' : st'.accumulated_content ++ st'.buffer = concatAll (cs.map Prod.snd) := by
    rw [h5]
    simp [String.empty_append]
  obtain ⟨a2, hm2, hc2, hp2, hobs2⟩ :=
    usageStep_pres cm mn st' u init a' (concatAll (cs.map Prod.snd)) h2 h3
      (by rw [hpre']; exact startsWith_refl _)
  have hmem' : m ∈ (loopRun cm mn (usageStep cm mn st' u) rest).1.obs := by
    have hh : handle_llm_request init sp cm mn (.ok (contentEvents cs ++ LoopEvent.item tu (.usage u) :: rest)) =
        loopRun cm mn (usageStep cm mn st' u) rest := by
      show loopRun cm mn
        { msgs := init ++ [mkResponseMessage sp mn], accumulated_content := "", buffer := "", last_update_time := none, error := none, obs := [init ++ [mkResponseMessage sp mn]], flushes := [] }
        (contentEvents cs ++ LoopEvent.item tu (.usage u) :: rest) = loopRun cm mn (usageStep cm mn st' u) rest
      rw [hrun, loopRun_usage]
    rw [hh] at hmem
    exact hmem
  have hobsAll : ∀ mm ∈ (usageStep cm mn st' u).obs,
      ObsCostP init (concatAll (cs.map Prod.snd)) mm := by
    intro mm hmm
    rcases hobs2 mm hmm with h | ⟨b, hb, hbp⟩
    · rcases h9 mm h with h' | ⟨b, hb, hbc⟩
      · simp at h'
        rw [h']
        exact hPnone (mkResponseMessage sp mn) rfl
      · rw [hb]
        exact hPnone b (hbc.trans rfl)
    · rw [hb]
      exact hPpre b hbp
  exact loopRun_obs_cost cm mn init (concatAll (cs.map Prod.snd)) rest
    (usageStep cm mn st' u) a2 hm2 hc2 hp2 hobsAll m hmem' a hshape hcost

/-- Witness for C3: delta "Hi" at time 0, then usage {2,3} with the selected
model priced at 5 USD per million prompt tokens; the last observable snapshot
has the cost set and its content starts with "Hi". -/
theorem C3_usage_flushed_before_cost_witness :
    ((handle_llm_request [] none [{ id := "m", name := "M", prompt_cost_usd_pm := some 5, completion_cost_usd_pm := none }] "m" (.ok (contentEvents [((0 : ℚ), "Hi")] ++ LoopEvent.item 1 (.usage ⟨2, 3⟩) :: []))).1.obs.getLast?.getD [] ∈
      (handle_llm_request [] none [{ id := "m", name := "M", prompt_cost_usd_pm := some 5, completion_cost_usd_pm := none }] "m" (.ok (contentEvents [((0 : ℚ), "Hi")] ++ LoopEvent.item 1 (.usage ⟨2, 3⟩) :: []))).1.obs) ∧
    ((handle_llm_request [] none [{ id := "m", name := "M", prompt_cost_usd_pm := some 5, completion_cost_usd_pm := none }] "m" (.ok (contentEvents [((0 : ℚ), "Hi")] ++ LoopEvent.item 1 (.usage ⟨2, 3⟩) :: []))).1.obs.getLast?.getD [] =
      [] ++ [((handle_llm_request [] none [{ id := "m", name := "M", prompt_cost_usd_pm := some 5, completion_cost_usd_pm := none }] "m" (.ok (contentEvents [((0 : ℚ), "Hi")] ++ LoopEvent.item 1 (.usage ⟨2, 3⟩) :: []))).1.obs.getLast?.getD []).getLast?.getD (mkResponseMessage none "m")]) ∧
    (((handle_llm_request [] none [{ id := "m", name := "M", prompt_cost_usd_pm := some 5, completion_cost_usd_pm := none }] "m" (.ok (contentEvents [((0 : ℚ), "Hi")] ++ LoopEvent.item 1 (.usage ⟨2, 3⟩) :: []))).1.obs.getLast?.getD []).getLast?.getD (mkResponseMessage none "m")).cost.isSome = true ∧
    StartsWith (((handle_llm_request [] none [{ id := "m", name := "M", prompt_cost_usd_pm := some 5, completion_cost_usd_pm := none }] "m" (.ok (contentEvents [((0 : ℚ), "Hi")] ++ LoopEvent.item 1 (.usage ⟨2, 3⟩) :: []))).1.obs.getLast?.getD []).getLast?.getD (mkResponseMessage none "m")).content
      (concatAll ([((0 : ℚ), "Hi")].map Prod.snd)) :=
  ⟨getLastD_mem _ _ (by decide), rfl, rfl,
   C3_usage_flushed_before_cost [] none [{ id := "m", name := "M", prompt_cost_usd_pm := some 5, completion_cost_usd_pm := none }] "m" [((0 : ℚ), "Hi")] 1 ⟨2, 3⟩ [] _ _ (getLastD_mem _ ([] : List Message) (by decide)) rfl rfl⟩

/-- C4: when the stream yields a usage report and the currently selected model
has a pricing entry, the assistant message's cost is set to token count times
per-token price on each side (per-million price times token count divided by
1,000,000); an absent per-token price yields a zero cost component rather than
an error or an unset field. -/
theorem C4_usage_cost_computed (init : List Message) (sp : Option SystemPrompt)
    (cm : List DisplayModelInfo) (mn : String) (cs : List (ℚ × String)) (tu : ℚ)
    (u : Usage) (mi : DisplayModelInfo)
    (hfind : cm.find? (fun x => x.id == mn) = some mi) :
    ((handle_llm_request init sp cm mn (.ok (contentEvents cs ++ [LoopEvent.item tu (.usage u), LoopEvent.streamEnd]))).1.msgs.getLast?.bind Message.cost =
      some ⟨mi.prompt_cost_usd_pm.getD 0 * u.prompt_tokens / 1000000, mi.completion_cost_usd_pm.getD 0 * u.completion_tokens / 1000000⟩) ∧
    (mi.prompt_cost_usd_pm = none →
      ((handle_llm_request init sp cm mn (.ok (contentEvents cs ++ [LoopEvent.item tu (.usage u), LoopEvent.streamEnd]))).1.msgs.getLast?.bind Message.cost).map MessageCost.prompt = some 0) ∧
    (mi.completion_cost_usd_pm = none →
      ((handle_llm_request init sp cm mn (.ok (contentEvents cs ++ [LoopEvent.item tu (.usage u), LoopEvent.streamEnd]))).1.msgs.getLast?.bind Message.cost).map MessageCost.completion = some 0) := by
  obtain ⟨st', a', hrun, h2, _⟩ :=
    loopRun_content_phase cm mn init cs [LoopEvent.item tu (.usage u), LoopEvent.streamEnd]
      { msgs := init ++ [mkResponseMessage sp mn], accumulated_content := "", buffer := "", last_update_time := none, error := none, obs := [init ++ [mkResponseMessage sp mn]], flushes := [] }
      (mkResponseMessage sp mn) rfl rfl rfl
  obtain ⟨a2, hm2, hcost2, hbuf2⟩ := usageStep_cost cm mn st' u mi init a' h2 hfind
  have hh : handle_llm_request init sp cm mn (.ok (contentEvents cs ++ [LoopEvent.item tu (.usage u), LoopEvent.streamEnd])) =
      (usageStep cm mn st' u, Outcome.completed) := by
    show loopRun cm mn
      { msgs := init ++ [mkResponseMessage sp mn], accumulated_content := "", buffer := "", last_update_time := none, error := none, obs := [init ++ [mkResponseMessage sp mn]], flushes := [] }
      (contentEvents cs ++ [LoopEvent.item tu (.usage u), LoopEvent.streamEnd]) = (usageStep cm mn st' u, Outcome.completed)
    rw [hrun, loopRun_usage, loopRun_end, endFlush_id _ hbuf2]
  refine ⟨?_, ?_, ?_⟩
  · rw [hh]
    show (usageStep cm mn st' u).msgs.getLast?.bind Message.cost = _
    rw [hm2, List.getLast?_concat]
    simp [hcost2]
  · intro hz
    rw [hh]
    show ((usageStep cm mn st' u).msgs.getLast?.bind Message.cost).map MessageCost.prompt = some 0
    rw [hm2, List.getLast?_concat]
    simp [hcost2, hz]
  · intro hz
    rw [hh]
    show ((usageStep cm mn st' u).msgs.getLast?.bind Message.cost).map MessageCost.completion = some 0
    rw [hm2, List.getLast?_concat]
    simp [hcost2, hz]

/-- Witness for C4: model "m" priced 5 USD per million prompt tokens, no
completion price, usage {2, 3}. -/
theorem C4_usage_cost_computed_witness :
    (([({ id := "m", name := "M", prompt_cost_usd_pm := some 5, completion_cost_usd_pm := none } : DisplayModelInfo)].find? (fun x => x.id == "m")) = some { id := "m", name := "M", prompt_cost_usd_pm := some 5, completion_cost_usd_pm := none }) ∧
    (((handle_llm_request [] none [{ id := "m", name := "M", prompt_cost_usd_pm := some 5, completion_cost_usd_pm := none }] "m" (.ok (contentEvents [] ++ [LoopEvent.item 1 (.usage ⟨2, 3⟩), LoopEvent.streamEnd]))).1.msgs.getLast?.bind Message.cost =
      some ⟨({ id := "m", name := "M", prompt_cost_usd_pm := some 5, completion_cost_usd_pm := none } : DisplayModelInfo).prompt_cost_usd_pm.getD 0 * (⟨2, 3⟩ : Usage).prompt_tokens / 1000000, ({ id := "m", name := "M", prompt_cost_usd_pm := some 5, completion_cost_usd_pm := none } : DisplayModelInfo).completion_cost_usd_pm.getD 0 * (⟨2, 3⟩ : Usage).completion_tokens / 1000000⟩) ∧
    (({ id := "m", name := "M", prompt_cost_usd_pm := some 5, completion_cost_usd_pm := none } : DisplayModelInfo).prompt_cost_usd_pm = none →
      ((handle_llm_request [] none [{ id := "m", name := "M", prompt_cost_usd_pm := some 5, completion_cost_usd_pm := none }] "m" (.ok (contentEvents [] ++ [LoopEvent.item 1 (.usage ⟨2, 3⟩), LoopEvent.streamEnd]))).1.msgs.getLast?.bind Message.cost).map MessageCost.prompt = some 0) ∧
    (({ id := "m", name := "M", prompt_cost_usd_pm := some 5, completion_cost_usd_pm := none } : DisplayModelInfo).completion_cost_usd_pm = none →
      ((handle_llm_request [] none [{ id := "m", name := "M", prompt_cost_usd_pm := some 5, completion_cost_usd_pm := none }] "m" (.ok (contentEvents [] ++ [LoopEvent.item 1 (.usage ⟨2, 3⟩), LoopEvent.streamEnd]))).1.msgs.getLast?.bind Message.cost).map MessageCost.completion = some 0)) :=
  ⟨rfl, C4_usage_cost_computed [] none [{ id := "m", name := "M", prompt_cost_usd_pm := some 5, completion_cost_usd_pm := none }] "m" [] 1 ⟨2, 3⟩ { id := "m", name := "M", prompt_cost_usd_pm := some 5, completion_cost_usd_pm := none } rfl⟩

/-- C10: every observable message-list state during one `handle_llm_request`
run extends the pre-existing messages unchanged, with at most the one appended
assistant message (all mutations touch only the final element: content
flushes and cost writes go through `last_mut`, removals pop the last
element); and the `last_mut` update and the `pop` are silent no-ops on an
empty list rather than failures. -/
theorem C10_mutations_touch_only_last (init : List Message) (sp : Option SystemPrompt)
    (cm : List DisplayModelInfo) (mn : String) (req : Except String (List LoopEvent))
    (f : Message → Message) (m : List Message)
    (hmem : m ∈ (handle_llm_request init sp cm mn req).1.obs) :
    (init <+: m ∧ m.length ≤ init.length + 1) ∧
    updateLast f [] = [] ∧ ([] : List Message).dropLast = [] := by
  refine ⟨?_, rfl, rfl⟩
  cases req with
  | error e =>
      simp [handle_llm_request, List.dropLast_concat] at hmem
      rcases hmem with h | h
      · rw [h]
        exact ⟨List.prefix_append _ _, by simp⟩
      · rw [h]
        exact ⟨List.prefix_refl _, by omega⟩
  | ok events =>
      refine loopRun_frame cm mn init events
        { msgs := init ++ [mkResponseMessage sp mn], accumulated_content := "", buffer := "", last_update_time := none, error := none, obs := [init ++ [mkResponseMessage sp mn]], flushes := [] }
        (mkResponseMessage sp mn) rfl rfl ?_ m hmem
      intro mm hmm
      simp at hmm
      rw [hmm]
      exact ⟨List.prefix_append _ _, by simp⟩

/-- Witness for C10: a failed stream open pops the placeholder; the empty
snapshot extends the empty pre-existing list. -/
theorem C10_mutations_touch_only_last_witness :
    (([] : List Message) ∈ (handle_llm_request [] none [] "m" (.error "boom")).1.obs) ∧
    ((([] : List Message) <+: ([] : List Message) ∧ ([] : List Message).length ≤ ([] : List Message).length + 1) ∧
     updateLast id [] = [] ∧ ([] : List Message).dropLast = []) :=
  ⟨by decide, C10_mutations_touch_only_last [] none [] "m" (.error "boom") id [] (by decide)⟩

/-- C8: an empty API credential is rejected as a precondition failure before
any network interaction: `request_message_content_streamed` returns the
missing-key error without opening a connection (so no stream is ever
consumed), and the `execute_llm_request` gate sets the error slot and never
starts the request. -/
theorem C8_empty_key_rejected_before_network (messages : List LlmMessage)
    (model_config : LlmModel) (api_key : String) (hk : api_key = "") :
    request_message_content_streamed messages model_config api_key =
      LlmRequestOutcome.rejected "OpenRouter API key is missing." ∧
    request_message_content_streamed messages model_config api_key ≠
      LlmRequestOutcome.streamOpened ∧
    (execute_llm_request api_key).llm_request_started = false ∧
    (execute_llm_request api_key).error =
      some "No API key provided. Please add one in Settings." := by
  subst hk
  refine ⟨rfl, ?_, rfl, rfl⟩
  intro h
  exact LlmRequestOutcome.noConfusion h

/-- Witness for C8 at the empty credential. -/
theorem C8_empty_key_rejected_before_network_witness :
    ("" : String) = "" ∧
    (request_message_content_streamed [] { model := "openai/gpt-4o", seed := none, temperature := some 1 } "" =
      LlmRequestOutcome.rejected "OpenRouter API key is missing." ∧
    request_message_content_streamed [] { model := "openai/gpt-4o", seed := none, temperature := some 1 } "" ≠
      LlmRequestOutcome.streamOpened ∧
    (execute_llm_request "").llm_request_started = false ∧
    (execute_llm_request "").error = some "No API key provided. Please add one in Settings.") :=
  ⟨rfl, C8_empty_key_rejected_before_network [] { model := "openai/gpt-4o", seed := none, temperature := some 1 } "" rfl⟩

/-- Counterexample to C9 as stated: loading an id absent from the store does
not transition the current-session state to Empty.  With current session
"old-session" holding one message, loading "missing-id" from an empty store
leaves the session id and (nonempty) message list unchanged and only sets the
error slot, so the previous session is retained as current. -/
theorem C9_not_found_counterexample :
    (load_session_action [] ["old-session"] { current_session_id := "old-session", messages := [{ prompt_name := none, role := "user", content := "hello", model_name := none, system_prompt_content := none, cost := none }], selected_prompt_name := none, error := none, current_session_index := some 0, page := .chatPage } "missing-id").current_session_id = "old-session" ∧
    (load_session_action [] ["old-session"] { current_session_id := "old-session", messages := [{ prompt_name := none, role := "user", content := "hello", model_name := none, system_prompt_content := none, cost := none }], selected_prompt_name := none, error := none, current_session_index := some 0, page := .chatPage } "missing-id").messages ≠ [] ∧
    (load_session_action [] ["old-session"] { current_session_id := "old-session", messages := [{ prompt_name := none, role := "user", content := "hello", model_name := none, system_prompt_content := none, cost := none }], selected_prompt_name := none, error := none, current_session_index := some 0, page := .chatPage } "missing-id").error = some "Session missing-id not found." := by
  refine ⟨rfl, ?_, rfl⟩
  decide

/-- C9 amended: loading a session id absent from the store completes without
a hard error and reports a not-found condition to the UI through the error
slot, while the current-session state (id, messages, prompt selection, index,
page) is retained unchanged — the manager does not transition to Empty. -/
theorem C9_not_found_reported_state_retained (store : List ChatSession)
    (ids : List String) (st : AppState) (id : String)
    (habsent : load_session store id = none) :
    (load_session_action store ids st id).error = some ("Session " ++ id ++ " not found.") ∧
    (load_session_action store ids st id).current_session_id = st.current_session_id ∧
    (load_session_action store ids st id).messages = st.messages ∧
    (load_session_action store ids st id).selected_prompt_name = st.selected_prompt_name ∧
    (load_session_action store ids st id).current_session_index = st.current_session_index ∧
    (load_session_action store ids st id).page = st.page := by
  simp [load_session_action, habsent]

/-- Witness for C9 (amended) at a concrete absent id. -/
theorem C9_not_found_reported_state_retained_witness :
    load_session ([] : List ChatSession) "x" = none ∧
    ((load_session_action [] [] { current_session_id := "old", messages := [], selected_prompt_name := none, error := none, current_session_index := none, page := .chatPage } "x").error = some ("Session " ++ "x" ++ " not found.") ∧
     (load_session_action [] [] { current_session_id := "old", messages := [], selected_prompt_name := none, error := none, current_session_index := none, page := .chatPage } "x").current_session_id = ({ current_session_id := "old", messages := [], selected_prompt_name := none, error := none, current_session_index := none, page := .chatPage } : AppState).current_session_id ∧
     (load_session_action [] [] { current_session_id := "old", messages := [], selected_prompt_name := none, error := none, current_session_index := none, page := .chatPage } "x").messages = ({ current_session_id := "old", messages := [], selected_prompt_name := none, error := none, current_session_index := none, page := .chatPage } : AppState).messages ∧
     (load_session_action [] [] { current_session_id := "old", messages := [], selected_prompt_name := none, error := none, current_session_index := none, page := .chatPage } "x").selected_prompt_name = ({ current_session_id := "old", messages := [], selected_prompt_name := none, error := none, current_session_index := none, page := .chatPage } : AppState).selected_prompt_name ∧
     (load_session_action [] [] { current_session_id := "old", messages := [], selected_prompt_name := none, error := none, current_session_index := none, page := .chatPage } "x").current_session_index = ({ current_session_id := "old", messages := [], selected_prompt_name := none, error := none, current_session_index := none, page := .chatPage } : AppState).current_session_index ∧
     (load_session_action [] [] { current_session_id := "old", messages := [], selected_prompt_name := none, error := none, current_session_index := none, page := .chatPage } "x").page = ({ current_session_id := "old", messages := [], selected_prompt_name := none, error := none, current_session_index := none, page := .chatPage } : AppState).page) :=
  ⟨rfl, C9_not_found_reported_state_retained [] [] { current_session_id := "old", messages := [], selected_prompt_name := none, error := none, current_session_index := none, page := .chatPage } "x" rfl⟩

/-- Point lookup of a freshly saved record returns exactly that record. -/
theorem load_save_same (store : List ChatSession) (s : ChatSession) :
    load_session (save_session store s) s.session_id = some s := by
  unfold load_session save_session
  induction store with
  | nil => simp
  | cons r rs ih =>
      by_cases h : r.session_id = s.session_id
      · simpa [List.filter_cons, h] using ih
      · simpa [List.filter_cons, h, List.find?_cons] using ih

/-- C7: a debounced save of a session that already has a stored record writes
a record whose `created_at_ms` equals the existing record's (read before the
overwrite) while `updated_at_ms` becomes now; only when no record exists does
`created_at_ms` get set to now; and saving the same session twice keeps the
original `created_at_ms` while only advancing `updated_at_ms`. -/
theorem C7_created_at_preserved (store : List ChatSession) (id : String)
    (msgs msgs' : List Message) (now now' : ℚ)
    (hid : id ≠ "") (hmsgs : msgs ≠ []) (hmsgs' : msgs' ≠ []) :
    (∀ s0, load_session store id = some s0 →
      load_session (debounced_save_session store id msgs now) id =
        some { session_id := id, messages := msgs, name := none, created_at_ms := s0.created_at_ms, updated_at_ms := now }) ∧
    (load_session store id = none →
      load_session (debounced_save_session store id msgs now) id =
        some { session_id := id, messages := msgs, name := none, created_at_ms := now, updated_at_ms := now }) ∧
    (∀ s0, load_session store id = some s0 →
      load_session (debounced_save_session (debounced_save_session store id msgs now) id msgs' now') id =
        some { session_id := id, messages := msgs', name := none, created_at_ms := s0.created_at_ms, updated_at_ms := now' }) := by
  refine ⟨?_, ?_, ?_⟩
  · intro s0 h0
    rw [debounced_save_session, if_neg (by simp [hid, hmsgs])]
    simp only [h0, Option.map_some, Option.getD_some]
    exact load_save_same store _
  · intro h0
    rw [debounced_save_session, if_neg (by simp [hid, hmsgs])]
    simp only [h0, Option.map_none, Option.getD_none]
    exact load_save_same store _
  · intro s0 h0
    have h1 : load_session (debounced_save_session store id msgs now) id =
        some { session_id := id, messages := msgs, name := none, created_at_ms := s0.created_at_ms, updated_at_ms := now } := by
      rw [debounced_save_session, if_neg (by simp [hid, hmsgs])]
      simp only [h0, Option.map_some, Option.getD_some]
      exact load_save_same store _
    rw [debounced_save_session, if_neg (by simp [hid, hmsgs'])]
    simp only [h1, Option.map_some, Option.getD_some]
    exact load_save_same _ _

/-- Witness for C7 at a concrete store, id and times. -/
theorem C7_created_at_preserved_witness :
    ("a" : String) ≠ "" ∧
    [({ prompt_name := none, role := "user", content := "hi", model_name := none, system_prompt_content := none, cost := none } : Message)] ≠ [] ∧
    [({ prompt_name := none, role := "user", content := "ho", model_name := none, system_prompt_content := none, cost := none } : Message)] ≠ [] ∧
    ((∀ s0, load_session [{ session_id := "a", messages := [], name := none, created_at_ms := 10, updated_at_ms := 20 }] "a" = some s0 →
      load_session (debounced_save_session [{ session_id := "a", messages := [], name := none, created_at_ms := 10, updated_at_ms := 20 }] "a" [{ prompt_name := none, role := "user", content := "hi", model_name := none, system_prompt_content := none, cost := none }] 30) "a" =
        some { session_id := "a", messages := [{ prompt_name := none, role := "user", content := "hi", model_name := none, system_prompt_content := none, cost := none }], name := none, created_at_ms := s0.created_at_ms, updated_at_ms := 30 }) ∧
    (load_session [{ session_id := "a", messages := [], name := none, created_at_ms := 10, updated_at_ms := 20 }] "a" = none →
      load_session (debounced_save_session [{ session_id := "a", messages := [], name := none, created_at_ms := 10, updated_at_ms := 20 }] "a" [{ prompt_name := none, role := "user", content := "hi", model_name := none, system_prompt_content := none, cost := none }] 30) "a" =
        some { session_id := "a", messages := [{ prompt_name := none, role := "user", content := "hi", model_name := none, system_prompt_content := none, cost := none }], name := none, created_at_ms := 30, updated_at_ms := 30 }) ∧
    (∀ s0, load_session [{ session_id := "a", messages := [], name := none, created_at_ms := 10, updated_at_ms := 20 }] "a" = some s0 →
      load_session (debounced_save_session (debounced_save_session [{ session_id := "a", messages := [], name := none, created_at_ms := 10, updated_at_ms := 20 }] "a" [{ prompt_name := none, role := "user", content := "hi", model_name := none, system_prompt_content := none, cost := none }] 30) "a" [{ prompt_name := none, role := "user", content := "ho", model_name := none, system_prompt_content := none, cost := none }] 40) "a" =
        some { session_id := "a", messages := [{ prompt_name := none, role := "user", content := "ho", model_name := none, system_prompt_content := none, cost := none }], name := none, created_at_ms := s0.created_at_ms, updated_at_ms := 40 })) :=
  ⟨by decide, by decide, by decide,
   C7_created_at_preserved [{ session_id := "a", messages := [], name := none, created_at_ms := 10, updated_at_ms := 20 }] "a" [{ prompt_name := none, role := "user", content := "hi", model_name := none, system_prompt_content := none, cost := none }] [{ prompt_name := none, role := "user", content := "ho", model_name := none, system_prompt_content := none, cost := none }] 30 40 (by decide) (by decide) (by decide)⟩

/-- One successful `get_db` from any real initial state: older schema version
or a fully current store; the upgrade is additive and cannot hit a
ConstraintError because creation is guarded by existence checks. -/
theorem get_db_ok (db : DbState)
    (hwf : db.hasIndex = true → db.hasStore = true)
    (hok : db.version < DB_VERSION ∨ (db.hasStore = true ∧ db.hasIndex = true)) :
    ∃ db', get_db db = .ok db' ∧ db'.records = db.records ∧
      db'.hasStore = true ∧ db'.hasIndex = true ∧ DB_VERSION ≤ db'.version := by
  by_cases hv : db.version < DB_VERSION
  · cases hstore : db.hasStore
    · have hindex : db.hasIndex = false := by
        cases hidx : db.hasIndex
        · rfl
        · rw [hwf hidx] at hstore
          exact absurd hstore (by simp)
      refine ⟨{ db with hasStore := true, hasIndex := true, version := DB_VERSION }, ?_, rfl, rfl, rfl, le_refl _⟩
      simp [get_db, hv, on_upgrade_needed, create_object_store, create_index, hstore, hindex]
    · cases hidx : db.hasIndex
      · refine ⟨{ db with hasIndex := true, version := DB_VERSION }, ?_, rfl, ?_, rfl, le_refl _⟩
        · simp [get_db, hv, on_upgrade_needed, create_index, hstore, hidx]
        · simp [hstore]
      · refine ⟨{ db with version := DB_VERSION }, ?_, rfl, ?_, ?_, le_refl _⟩
        · simp [get_db, hv, on_upgrade_needed, hstore, hidx]
        · simp [hstore]
        · simp [hidx]
  · rcases hok with hok' | ⟨hs, hi⟩
    · exact absurd hok' hv
    · refine ⟨db, ?_, rfl, hs, hi, Nat.not_lt.mp hv⟩
      simp [get_db, hv]

/-- C6: opening the store `n` times in sequence never errors (in particular
not because the keyspace or index already exists), never loses records —
every previously stored record is still retrievable — and after at least one
open the object store and the `updated_at_ms` index both exist. -/
theorem C6_open_idempotent_additive (db : DbState) (n : Nat)
    (hwf : db.hasIndex = true → db.hasStore = true)
    (hok : db.version < DB_VERSION ∨ (db.hasStore = true ∧ db.hasIndex = true)) :
    ∃ db', open_many n db = .ok db' ∧ db'.records = db.records ∧
      (∀ id, load_session db'.records id = load_session db.records id) ∧
      (1 ≤ n → db'.hasStore = true ∧ db'.hasIndex = true) := by
  cases n with
  | zero => exact ⟨db, rfl, rfl, fun id => rfl, by omega⟩
  | succ k =>
      obtain ⟨db1, h1, hrec1, hs1, hi1, hv1⟩ := get_db_ok db hwf hok
      have iter : ∀ (m : Nat) (d : DbState), d.hasStore = true → d.hasIndex = true →
          DB_VERSION ≤ d.version → open_many m d = .ok d := by
        intro m
        induction m with
        | zero => intro d _ _ _; rfl
        | succ j ih =>
            intro d hs hi hv
            have hstep : get_db d = .ok d := by
              rw [get_db, if_neg (Nat.not_lt.mpr hv)]
            rw [open_many, hstep]
            exact ih d hs hi hv
      refine ⟨db1, ?_, hrec1, fun id => by rw [hrec1], fun _ => ⟨hs1, hi1⟩⟩
      rw [open_many, h1]
      exact iter k db1 hs1 hi1 hv1

/-- Witness for C6: an older-schema database (version 0) whose object store
exists but whose `updated_at_ms` index is missing, holding one record, opened
twice. -/
theorem C6_open_idempotent_additive_witness :
    (({ hasStore := true, hasIndex := false, version := 0, records := [{ session_id := "a", messages := [], name := none, created_at_ms := 1, updated_at_ms := 2 }] } : DbState).hasIndex = true → ({ hasStore := true, hasIndex := false, version := 0, records := [{ session_id := "a", messages := [], name := none, created_at_ms := 1, updated_at_ms := 2 }] } : DbState).hasStore = true) ∧
    (({ hasStore := true, hasIndex := false, version := 0, records := [{ session_id := "a", messages := [], name := none, created_at_ms := 1, updated_at_ms := 2 }] } : DbState).version < DB_VERSION ∨ (({ hasStore := true, hasIndex := false, version := 0, records := [{ session_id := "a", messages := [], name := none, created_at_ms := 1, updated_at_ms := 2 }] } : DbState).hasStore = true ∧ ({ hasStore := true, hasIndex := false, version := 0, records := [{ session_id := "a", messages := [], name := none, created_at_ms := 1, updated_at_ms := 2 }] } : DbState).hasIndex = true)) ∧
    (∃ db', open_many 2 { hasStore := true, hasIndex := false, version := 0, records := [{ session_id := "a", messages := [], name := none, created_at_ms := 1, updated_at_ms := 2 }] } = .ok db' ∧
      db'.records = ({ hasStore := true, hasIndex := false, version := 0, records := [{ session_id := "a", messages := [], name := none, created_at_ms := 1, updated_at_ms := 2 }] } : DbState).records ∧
      (∀ id, load_session db'.records id = load_session ({ hasStore := true, hasIndex := false, version := 0, records := [{ session_id := "a", messages := [], name := none, created_at_ms := 1, updated_at_ms := 2 }] } : DbState).records id) ∧
      (1 ≤ 2 → db'.hasStore = true ∧ db'.hasIndex = true)) :=
  ⟨by decide, by decide,
   C6_open_idempotent_additive { hasStore := true, hasIndex := false, version := 0, records := [{ session_id := "a", messages := [], name := none, created_at_ms := 1, updated_at_ms := 2 }] } 2 (by decide) (by decide)⟩

theorem indexLE_trans : ∀ a b c : ChatSession,
    indexLE a b = true → indexLE b c = true → indexLE a c = true := by
  intro a b c hab hbc
  simp only [indexLE, decide_eq_true_eq] at hab hbc ⊢
  rcases hab with h1 | ⟨h1, h1'⟩ <;> rcases hbc with h2 | ⟨h2, h2'⟩
  · exact Or.inl (lt_trans h1 h2)
  · exact Or.inl (h2 ▸ h1)
  · exact Or.inl (h1 ▸ h2)
  · exact Or.inr ⟨h1.trans h2, le_trans h1' h2'⟩

theorem indexLE_total : ∀ a b : ChatSession, (indexLE a b || indexLE b a) = true := by
  intro a b
  simp only [indexLE, Bool.or_eq_true, decide_eq_true_eq]
  rcases lt_trichotomy a.updated_at_ms b.updated_at_ms with h | h | h
  · exact Or.inl (Or.inl h)
  · rcases le_total a.session_id b.session_id with hs | hs
    · exact Or.inl (Or.inr ⟨h, hs⟩)
    · exact Or.inr (Or.inr ⟨h.symm, hs⟩)
  · exact Or.inr (Or.inl h)

/-- C5: with pairwise-distinct `updated_at_ms` values, the key listing is
exactly the stored session ids ordered by `updated_at_ms` descending (the
listing reads only keys and, being a pure function with a primary-key tie
break, is deterministic); and after re-saving a session whose new
`updated_at_ms` strictly exceeds every other record's, its id comes first. -/
theorem C5_recency_listing (store : List ChatSession) (s : ChatSession)
    (hdis : store.Pairwise (fun a b => a.updated_at_ms ≠ b.updated_at_ms))
    (hmax : ∀ r ∈ store, r.session_id ≠ s.session_id → r.updated_at_ms < s.updated_at_ms) :
    (∃ sorted : List ChatSession, sorted.Perm store ∧
       sorted.Pairwise (fun a b => b.updated_at_ms < a.updated_at_ms) ∧
       get_all_session_keys_sorted_by_update store = sorted.map (fun r => r.session_id)) ∧
    (get_all_session_keys_sorted_by_update (save_session store s)).head? = some s.session_id := by
  constructor
  · refine ⟨(store.mergeSort indexLE).reverse, ?_, ?_, rfl⟩
    · exact (List.reverse_perm _).trans (List.mergeSort_perm store indexLE)
    · have hsorted : (store.mergeSort indexLE).Pairwise (fun a b => indexLE a b = true) :=
        @List.sorted_mergeSort _ indexLE indexLE_trans indexLE_total store
      have hne : (store.mergeSort indexLE).Pairwise
          (fun a b => a.updated_at_ms ≠ b.updated_at_ms) :=
        (List.Perm.pairwise_iff (fun h => Ne.symm h)
          (List.mergeSort_perm store indexLE)).mpr hdis
      have hasc : (store.mergeSort indexLE).Pairwise
          (fun a b => a.updated_at_ms < b.updated_at_ms) := by
        refine (hsorted.and hne).imp ?_
        intro a b hab
        obtain ⟨hle, hne'⟩ := hab
        simp only [indexLE, decide_eq_true_eq] at hle
        rcases hle with h | ⟨h, _⟩
        · exact h
        · exact absurd h hne'
      exact List.pairwise_reverse.mpr hasc
  · have hmem : s ∈ save_session store s := by
      simp [save_session]
    have hothers : ∀ r ∈ save_session store s, r = s ∨ r.updated_at_ms < s.updated_at_ms := by
      intro r hr
      rcases List.mem_append.mp hr with hr' | hr'
      · obtain ⟨hrstore, hrne⟩ := List.mem_filter.mp hr'
        refine Or.inr (hmax r hrstore ?_)
        simpa using hrne
      · exact Or.inl (List.mem_singleton.mp hr')
    have hsorted' : ((save_session store s).mergeSort indexLE).Pairwise
        (fun a b => indexLE a b = true) :=
      @List.sorted_mergeSort _ indexLE indexLE_trans indexLE_total (save_session store s)
    have hperm' : ((save_session store s).mergeSort indexLE).Perm (save_session store s) :=
      List.mergeSort_perm (save_session store s) indexLE
    obtain ⟨x, xs, hx⟩ : ∃ x xs, ((save_session store s).mergeSort indexLE).reverse = x :: xs := by
      cases hrev : ((save_session store s).mergeSort indexLE).reverse with
      | nil =>
          exfalso
          have h0 : (save_session store s).mergeSort indexLE = [] :=
            List.reverse_eq_nil_iff.mp hrev
          have hnil : save_session store s = [] := by
            have hp := hperm'
            rw [h0] at hp
            exact (hp.symm).eq_nil
          rw [hnil] at hmem
          simp at hmem
      | cons x xs => exact ⟨x, xs, rfl⟩
    have hrevsorted : (x :: xs).Pairwise (fun a b => indexLE b a = true) := by
      rw [← hx]
      exact List.pairwise_reverse.mpr hsorted'
    have hxmem : x ∈ save_session store s := by
      have hx' : x ∈ ((save_session store s).mergeSort indexLE).reverse := by
        rw [hx]
        exact List.mem_cons_self _ _
      exact hperm'.mem_iff.mp (List.mem_reverse.mp hx')
    have hsx : s = x := by
      by_contra hne
      have hsmem : s ∈ x :: xs := by
        rw [← hx, List.mem_reverse]
        exact hperm'.mem_iff.mpr hmem
      rcases List.mem_cons.mp hsmem with h | h
      · exact hne h
      · have hle : indexLE s x = true := (List.pairwise_cons.mp hrevsorted).1 s h
        rcases hothers x hxmem with hxs | hxlt
        · exact hne hxs.symm
        · simp only [indexLE, decide_eq_true_eq] at hle
          rcases hle with hlt | ⟨heq, _⟩
          · exact absurd hxlt (lt_asymm hlt)
          · rw [heq] at hxlt
            exact absurd hxlt (lt_irrefl _)
    show (((save_session store s).mergeSort indexLE).reverse.map (fun r => r.session_id)).head? = some s.session_id
    rw [hx, ← hsx]
    rfl

/-- Witness for C5: three sessions with updated_at 1 < 2 < 3, then a re-save
of the oldest session with updated_at 4. -/
theorem C5_recency_listing_witness :
    ([{ session_id := "a", messages := [], name := none, created_at_ms := 0, updated_at_ms := 1 }, { session_id := "b", messages := [], name := none, created_at_ms := 0, updated_at_ms := 2 }, { session_id := "c", messages := [], name := none, created_at_ms := 0, updated_at_ms := 3 }] : List ChatSession).Pairwise (fun a b => a.updated_at_ms ≠ b.updated_at_ms) ∧
    (∀ r ∈ ([{ session_id := "a", messages := [], name := none, created_at_ms := 0, updated_at_ms := 1 }, { session_id := "b", messages := [], name := none, created_at_ms := 0, updated_at_ms := 2 }, { session_id := "c", messages := [], name := none, created_at_ms := 0, updated_at_ms := 3 }] : List ChatSession), r.session_id ≠ ({ session_id := "a", messages := [], name := none, created_at_ms := 0, updated_at_ms := 4 } : ChatSession).session_id → r.updated_at_ms < ({ session_id := "a", messages := [], name := none, created_at_ms := 0, updated_at_ms := 4 } : ChatSession).updated_at_ms) ∧
    ((∃ sorted : List ChatSession, sorted.Perm [{ session_id := "a", messages := [], name := none, created_at_ms := 0, updated_at_ms := 1 }, { session_id := "b", messages := [], name := none, created_at_ms := 0, updated_at_ms := 2 }, { session_id := "c", messages := [], name := none, created_at_ms := 0, updated_at_ms := 3 }] ∧
       sorted.Pairwise (fun a b => b.updated_at_ms < a.updated_at_ms) ∧
       get_all_session_keys_sorted_by_update [{ session_id := "a", messages := [], name := none, created_at_ms := 0, updated_at_ms := 1 }, { session_id := "b", messages := [], name := none, created_at_ms := 0, updated_at_ms := 2 }, { session_id := "c", messages := [], name := none, created_at_ms := 0, updated_at_ms := 3 }] = sorted.map (fun r => r.session_id)) ∧
     (get_all_session_keys_sorted_by_update (save_session [{ session_id := "a", messages := [], name := none, created_at_ms := 0, updated_at_ms := 1 }, { session_id := "b", messages := [], name := none, created_at_ms := 0, updated_at_ms := 2 }, { session_id := "c", messages := [], name := none, created_at_ms := 0, updated_at_ms := 3 }] { session_id := "a", messages := [], name := none, created_at_ms := 0, updated_at_ms := 4 })).head? = some ({ session_id := "a", messages := [], name := none, created_at_ms := 0, updated_at_ms := 4 } : ChatSession).session_id) :=
  ⟨by decide, by decide,
   C5_recency_listing [{ session_id := "a", messages := [], name := none, created_at_ms := 0, updated_at_ms := 1 }, { session_id := "b", messages := [], name := none, created_at_ms := 0, updated_at_ms := 2 }, { session_id := "c", messages := [], name := none, created_at_ms := 0, updated_at_ms := 3 }] { session_id := "a", messages := [], name := none, created_at_ms := 0, updated_at_ms := 4 } (by decide) (by decide)⟩
